import Mathlib

/-!
Shallow embedding of `ghupdate` (src/updates.go) in Lean 4, together with
proofs settling the frozen claims about its specification.

Go strings are modelled as `List Char` (the repository only manipulates
ASCII names, paths and version strings).  Filesystem state is modelled as a
partial map from paths to files (bytes plus permission mode); network and
process effects are passed in explicitly as oracle parameters.
-/

namespace Ghupdate

/-- Go `string`, modelled as a list of characters. -/
abbrev Str := List Char

/-- Models Go `strings.HasPrefix`. -/
def goHasPre (pre s : Str) : Bool := pre.isPrefixOf s

/-- Models Go `strings.TrimPrefix`: drops `pre` when it heads `s`, else `s`. -/
def goTrimPre (pre s : Str) : Str := if goHasPre pre s then s.drop pre.length else s

/-- Fuelled scan loop of Go `strings.Replace(s, old, new, -1)` for a
non-empty pattern `p :: ps`: left-to-right, non-overlapping replacement.
The fuel only forces structural termination; it is immaterial whenever it
is at least the length of the scanned string (`replLoopF_congr`). -/
def replLoopF (p : Char) (ps rep : Str) : Nat → Str → Str
  | _, [] => []
  | 0, _ :: _ => []
  | f + 1, c :: rest =>
    if (p :: ps).isPrefixOf (c :: rest) then
      rep ++ replLoopF p ps rep f (rest.drop ps.length)
    else
      c :: replLoopF p ps rep f rest

/-- Scan loop of `strings.Replace` with the canonical fuel. -/
def replLoop (p : Char) (ps rep s : Str) : Str :=
  replLoopF p ps rep s.length s

/-- Models Go `strings.ReplaceAll`.  An empty pattern makes Go insert the
replacement before every rune and after the last one. -/
def replaceAll (s pat rep : Str) : Str :=
  match pat with
  | [] => rep ++ s.foldr (fun c acc => c :: (rep ++ acc)) []
  | p :: ps => replLoop p ps rep s

/-- Whether `pat` occurs as a contiguous substring of `s`. -/
def hasOccur (pat : Str) : Str → Bool
  | [] => pat.isEmpty
  | c :: rest => pat.isPrefixOf (c :: rest) || hasOccur pat rest

/-- Number of positions of `s` at which `pat` occurs as a substring. -/
def countOccur (pat : Str) : Str → Nat
  | [] => if pat.isEmpty then 1 else 0
  | c :: rest => (if pat.isPrefixOf (c :: rest) then 1 else 0) + countOccur pat rest

/-- The `{version}` placeholder token. -/
def tokVersion : Str := "{version}".toList

/-- The `{os}` placeholder token. -/
def tokOs : Str := "{os}".toList

/-- The `{arch}` placeholder token. -/
def tokArch : Str := "{arch}".toList

/-- The `{ext}` placeholder token. -/
def tokExt : Str := "{ext}".toList

/-- Models `getExecutableExtension` from src/updates.go, with `runtime.GOOS`
passed explicitly. -/
def getExecutableExtension (goos : Str) : Str :=
  if goos = "windows".toList then ".exe".toList else []

/-- Models `buildAssetName` from src/updates.go: sequential placeholder
substitution, with `{ext}` resolved from the target `os` value. -/
def buildAssetName (pattern version os arch : Str) : Str :=
  let n1 := replaceAll pattern tokVersion version
  let n2 := replaceAll n1 tokOs os
  let n3 := replaceAll n2 tokArch arch
  let ext : Str := if os = "windows".toList then ".exe".toList else []
  replaceAll n3 tokExt ext

example : buildAssetName "app-{version}-{os}-{arch}{ext}".toList "v1.2.0".toList "linux".toList "amd64".toList = "app-v1.2.0-linux-amd64".toList := by decide

example : buildAssetName "app-{version}-{os}-{arch}{ext}".toList "v1".toList "windows".toList "arm64".toList = "app-v1-windows-arm64.exe".toList := by decide

example : hasOccur tokVersion (buildAssetName "{version}{os}{arch}{ext}".toList "1".toList "{version}".toList "a".toList) = true := by decide

/-! ### Semantic versions: embedding of `golang.org/x/mod/semver`
`isNewerVersion` in src/updates.go delegates to `semver.Compare`; the
relevant parts of that library (parse and compare) are embedded here. -/

/-- ASCII digit test. -/
def isDigitC (c : Char) : Bool := '0' ≤ c && c ≤ '9'

/-- `isIdentChar` from x/mod/semver: letters, digits and hyphen. -/
def isIdentChar (c : Char) : Bool :=
  ('A' ≤ c && c ≤ 'Z') || ('a' ≤ c && c ≤ 'z') || ('0' ≤ c && c ≤ '9') || c = '-'

/-- `isNum` from x/mod/semver: the string is all digits (vacuously true of
the empty string, as in the source). -/
def isNumStr (s : Str) : Bool := s.all isDigitC

/-- `isBadNum` from x/mod/semver: an all-digit identifier with a leading
zero and more than one digit. -/
def isBadNum (s : Str) : Bool :=
  isNumStr s && decide (s.length > 1) && decide (s.headD ' ' = '0')

/-- `parseInt` from x/mod/semver: leading decimal digits without a leading
zero; returns the digits and the remainder. -/
def parseIntS (v : Str) : Option (Str × Str) :=
  match v with
  | [] => none
  | c :: _ =>
    if ¬ isDigitC c then none
    else
      let digs := v.takeWhile isDigitC
      let rest := v.dropWhile isDigitC
      if c = '0' ∧ digs.length ≠ 1 then none else some (digs, rest)

/-- Splits a string at every `'.'` (empty pieces preserved). -/
def splitDots : Str → List Str
  | [] => [[]]
  | c :: rest =>
    let ps := splitDots rest
    if c = '.' then [] :: ps
    else (c :: ps.headD []) :: ps.tail

/-- Validity of a prerelease body per x/mod/semver `parsePrerelease`:
dot-separated identifiers, each non-empty, of identifier characters, and
no all-numeric identifier with leading zeros. -/
def preBodyOk (body : Str) : Bool :=
  (splitDots body).all fun p => decide (p ≠ []) && p.all isIdentChar && !isBadNum p

/-- `parsePrerelease` from x/mod/semver: a `'-'`, then identifiers up to a
`'+'` or the end; the returned token keeps the leading `'-'`. -/
def parsePrereleaseS (v : Str) : Option (Str × Str) :=
  match v with
  | '-' :: rest =>
    let body := rest.takeWhile (fun c => c ≠ '+')
    let tl := rest.dropWhile (fun c => c ≠ '+')
    if preBodyOk body then some ('-' :: body, tl) else none
  | _ => none

/-- `parseBuild` from x/mod/semver: a `'+'`, then dot-separated non-empty
identifier-character pieces running to the end of the string. -/
def parseBuildS (v : Str) : Option (Str × Str) :=
  match v with
  | '+' :: rest =>
    if (splitDots rest).all (fun p => decide (p ≠ []) && p.all isIdentChar)
    then some ('+' :: rest, []) else none
  | _ => none

/-- The fields of a parsed semantic version that `semver.Compare` consults
(major/minor/patch digit strings and the prerelease including its `'-'`;
the build suffix is validated by parsing but ignored by comparison). -/
structure SemverParsed where
  major : Str
  minor : Str
  patch : Str
  prerelease : Str

/-- `parse` from x/mod/semver: requires the leading `'v'`; minor and patch
default to `"0"`; optional prerelease then build; no trailing garbage. -/
def semverParse (v : Str) : Option SemverParsed :=
  match v with
  | 'v' :: r0 =>
    match parseIntS r0 with
    | none => none
    | some (maj, r1) =>
      match r1 with
      | [] => some ⟨maj, ['0'], ['0'], []⟩
      | '.' :: r2 =>
        match parseIntS r2 with
        | none => none
        | some (mino, r3) =>
          match r3 with
          | [] => some ⟨maj, mino, ['0'], []⟩
          | '.' :: r4 =>
            match parseIntS r4 with
            | none => none
            | some (pat, r5) =>
              match r5 with
              | [] => some ⟨maj, mino, pat, []⟩
              | '-' :: _ =>
                match parsePrereleaseS r5 with
                | none => none
                | some (pre, r6) =>
                  match r6 with
                  | [] => some ⟨maj, mino, pat, pre⟩
                  | '+' :: _ =>
                    match parseBuildS r6 with
                    | none => none
                    | some (_, r7) => if r7 = [] then some ⟨maj, mino, pat, pre⟩ else none
                  | _ => none
              | '+' :: _ =>
                match parseBuildS r5 with
                | none => none
                | some (_, r7) => if r7 = [] then some ⟨maj, mino, pat, []⟩ else none
              | _ => none
          | _ => none
      | _ => none
  | _ => none

/-- Go string `<`: bytewise lexicographic order (ASCII here). -/
def strLtB : Str → Str → Bool
  | [], [] => false
  | [], _ :: _ => true
  | _ :: _, [] => false
  | a :: as, b :: bs => if a = b then strLtB as bs else decide (a < b)

/-- `compareInt` from x/mod/semver: equal strings are equal numbers; else
the shorter digit string is smaller; else lexicographic. -/
def compareInt (x y : Str) : Int :=
  if x = y then 0
  else if x.length < y.length then -1
  else if y.length < x.length then 1
  else if strLtB x y then -1 else 1

/-- Fuelled loop of `comparePrerelease` from x/mod/semver: strips the
separator, takes the next dot-identifier from each side, orders numeric
identifiers below alphanumeric ones and numerically among themselves.
Fuel is immaterial once it reaches the length of the first argument. -/
def comparePreLoopF : Nat → Str → Str → Int
  | _, [], _ => -1
  | _, _ :: _, [] => 1
  | 0, _ :: _, _ :: _ => 0
  | f + 1, _ :: xs, _ :: ys =>
    let dx := xs.takeWhile (fun c => c ≠ '.')
    let x2 := xs.dropWhile (fun c => c ≠ '.')
    let dy := ys.takeWhile (fun c => c ≠ '.')
    let y2 := ys.dropWhile (fun c => c ≠ '.')
    if dx = dy then comparePreLoopF f x2 y2
    else
      let ix := isNumStr dx
      let iy := isNumStr dy
      if ix ≠ iy then (if ix then -1 else 1)
      else if ix ∧ dx.length ≠ dy.length then (if dx.length < dy.length then -1 else 1)
      else (if strLtB dx dy then -1 else 1)

/-- `comparePrerelease` from x/mod/semver: a version without prerelease is
higher than one with it; otherwise the identifier loop decides. -/
def comparePre (x y : Str) : Int :=
  if x = y then 0
  else if x = [] then 1
  else if y = [] then -1
  else comparePreLoopF x.length x y

/-- `Compare` from x/mod/semver: an invalid version is below every valid
one, two invalid versions are equal; otherwise compare the numeric triple
and then the prerelease. -/
def semverCompare (v w : Str) : Int :=
  match semverParse v, semverParse w with
  | none, none => 0
  | none, some _ => -1
  | some _, none => 1
  | some a, some b =>
    let c1 := compareInt a.major b.major
    if c1 ≠ 0 then c1
    else
      let c2 := compareInt a.minor b.minor
      if c2 ≠ 0 then c2
      else
        let c3 := compareInt a.patch b.patch
        if c3 ≠ 0 then c3
        else comparePre a.prerelease b.prerelease

/-- The `'v'`-normalization applied by `isNewerVersion` in src/updates.go
to each of its arguments. -/
def addV (s : Str) : Str := if goHasPre "v".toList s then s else 'v' :: s

/-- Models `isNewerVersion` from src/updates.go: normalize both arguments
with `addV`, then ask whether `semver.Compare(latest, current) > 0`. -/
def isNewerVersion (current latest : Str) : Bool :=
  decide (semverCompare (addV latest) (addV current) > 0)

example : isNewerVersion "v1.0.0".toList "v1.2.0".toList = true := by decide
example : isNewerVersion "v1.0.0".toList "v1.0.0".toList = false := by decide
example : isNewerVersion "v1.2.0".toList "v1.0.0".toList = false := by decide
example : isNewerVersion "1.0.0".toList "v1.0.1".toList = true := by decide
example : isNewerVersion "v1.0.0".toList "garbage".toList = false := by decide
example : isNewerVersion "garbage".toList "v1.0.0".toList = true := by decide
example : isNewerVersion "v1.0.0-alpha".toList "v1.0.0".toList = true := by decide
example : isNewerVersion "v1.0.0".toList "v1.0.0-alpha".toList = false := by decide
example : isNewerVersion "v1.0.0-alpha".toList "v1.0.0-alpha.1".toList = true := by decide
example : isNewerVersion "v1.0.0-alpha.9".toList "v1.0.0-alpha.10".toList = true := by decide
example : isNewerVersion "v1.0.0".toList "v1.0.0+build".toList = false := by decide
example : isNewerVersion "v1.0.0".toList "v1.00.1".toList = false := by decide

/-! ### Release assets and asset matching -/

/-- `GitHubAsset` from src/updates.go. -/
structure GitHubAsset where
  name : Str
  browserDownloadURL : Str
  size : Int

/-- The error text built by `findMatchingAsset`'s `fmt.Errorf` call: it
interpolates the pattern, the rendered expected name, the version, the os
and the arch — and nothing else. -/
def assetNotFoundMsg (pattern expected version os arch : Str) : Str :=
  "no asset found matching pattern: ".toList ++ pattern
    ++ " (expected: ".toList ++ expected
    ++ ") for version ".toList ++ version
    ++ ", os ".toList ++ os
    ++ ", arch ".toList ++ arch

/-- Models `findMatchingAsset` from src/updates.go: render the expected
name, return the first asset whose name equals it exactly, else the
formatted error. -/
def findMatchingAsset (assets : List GitHubAsset) (pattern version os arch : Str) :
    Except Str GitHubAsset :=
  let expected := buildAssetName pattern version os arch
  match assets.find? (fun a => a.name = expected) with
  | some a => .ok a
  | none => .error (assetNotFoundMsg pattern expected version os arch)

/-! ### Integer formatting and parsing (`strconv.Itoa` / `strconv.Atoi`) -/

/-- Fuelled decimal digit expansion; the fuel is immaterial once positive
and at least the number of digits. -/
def natToDigitsF : Nat → Nat → Str
  | 0, _ => []
  | f + 1, n =>
    if n < 10 then [Char.ofNat ('0'.toNat + n)]
    else natToDigitsF f (n / 10) ++ [Char.ofNat ('0'.toNat + n % 10)]

/-- Decimal digits of a natural number. -/
def natToDigits (n : Nat) : Str := natToDigitsF (n + 1) n

/-- Models `strconv.Itoa`. -/
def goItoa (i : Int) : Str :=
  if i < 0 then '-' :: natToDigits i.natAbs else natToDigits i.toNat

/-- Models `strconv.Atoi` on a 64-bit platform: optional sign, at least
one digit, digits only, and the value must fit a signed 64-bit integer
(out of range makes `Atoi` return a non-nil error, modelled as `none`). -/
def goAtoi (s : Str) : Option Int :=
  let signDigits : Bool × Str :=
    match s with
    | '+' :: r => (false, r)
    | '-' :: r => (true, r)
    | r => (false, r)
  let neg := signDigits.1
  let digits := signDigits.2
  if digits = [] ∨ ¬ digits.all isDigitC then none
  else
    let n : Nat := digits.foldl (fun acc c => acc * 10 + (c.toNat - '0'.toNat)) 0
    let v : Int := if neg then -(n : Int) else (n : Int)
    if v < -(2 ^ 63) ∨ v > 2 ^ 63 - 1 then none else some v

example : goAtoi "-5".toList = some (-5) := by decide
example : goAtoi "0".toList = some 0 := by decide
example : goAtoi "+0".toList = some 0 := by decide
example : goAtoi "12x".toList = none := by decide
example : goAtoi "".toList = none := by decide
example : goItoa 1234 = "1234".toList := by decide
example : goItoa (-7) = "-7".toList := by decide

/-! ### Configuration, paths and the filesystem model -/

/-- `UpdateConfig` from src/updates.go. -/
structure UpdateConfig where
  GitHubOwner : Str
  GitHubRepo : Str
  GitHubToken : Str
  CurrentVersion : Str
  DataDir : Str
  ExecutablePath : Str
  AssetPattern : Str
  OS : Str
  Arch : Str

/-- Models `validateConfig` from src/updates.go. -/
def validateConfig (c : UpdateConfig) : Except Str Unit :=
  if c.GitHubOwner = [] then .error "GitHubOwner is required".toList
  else if c.GitHubRepo = [] then .error "GitHubRepo is required".toList
  else if c.CurrentVersion = [] then .error "CurrentVersion is required".toList
  else if c.DataDir = [] then .error "DataDir is required".toList
  else if c.ExecutablePath = [] then .error "ExecutablePath is required".toList
  else if c.AssetPattern = [] then .error "AssetPattern is required".toList
  else .ok ()

/-- `filepath.Join` of a directory and a file name, with the POSIX
separator (path cleaning of the inputs is not modelled). -/
def joinPath (dir name : Str) : Str := dir ++ '/' :: name

/-- The staged artifact's file name: `"update" + getExecutableExtension()`
(src/updates.go lines 126, 159, 192). -/
def updateName (goos : Str) : Str := "update".toList ++ getExecutableExtension goos

/-- The staged artifact's canonical path inside a staging directory. -/
def updatePathOf (dataDir goos : Str) : Str := joinPath dataDir (updateName goos)

/-- The staged artifact's path as computed from an `UpdateConfig`. -/
def stagedPath (c : UpdateConfig) (goos : Str) : Str := updatePathOf c.DataDir goos

/-- A file: its bytes and its permission mode bits. -/
structure FSFile where
  bytes : List Nat
  mode : Nat

/-- The filesystem, as a partial map from paths to files. -/
abbrev FS := Str → Option FSFile

/-- Writing a file at a path. -/
def fsSet (fs : FS) (p : Str) (f : FSFile) : FS :=
  fun q => if q = p then some f else fs q

/-- Removing a file at a path. -/
def fsRemove (fs : FS) (p : Str) : FS :=
  fun q => if q = p then none else fs q

/-- `os.Chmod`: replace the mode bits of an existing file. -/
def fsChmod (fs : FS) (p : Str) (mode : Nat) : FS :=
  fun q => if q = p then (fs p).map (fun f => ⟨f.bytes, mode⟩) else fs q

/-! ### copyFile, downloadAsset and the staging tail of CheckAndPrepareUpdate -/

/-- Models `copyFile` from src/updates.go: open the source, `os.Create`
the destination (truncating an existing file, which keeps its mode bits;
a fresh file gets the 0666 default, umask not modelled), copy the bytes,
then `os.Chmod` the destination to the mode `os.Stat` reports for the
*source*. -/
def copyFile (fs : FS) (src dst : Str) : Except Str FS :=
  match fs src with
  | none => .error "failed to open source file".toList
  | some sf =>
    let createdMode := match fs dst with | some df => df.mode | none => 0o666
    let fs1 := fsSet fs dst ⟨sf.bytes, createdMode⟩
    let fs2 := fsSet fs1 dst ⟨sf.bytes, sf.mode⟩
    .ok fs2

/-- Models `downloadAsset` from src/updates.go.  The HTTP response is an
oracle: a status code, the chunks delivered before the body either ends
cleanly (`streamOk = true`) or fails mid-stream (`streamOk = false`).
On a 200 status the destination file is created at its final path first
and the delivered bytes are written to it; a mid-stream failure returns
an error *after* those bytes have landed at the destination.  (Error
texts elide the `%q`-formatted url/path interpolations.) -/
def downloadAsset (fs : FS) (destPath : Str) (status : Nat)
    (chunks : List (List Nat)) (streamOk : Bool) : Except Str Unit × FS :=
  if status ≠ 200 then (.error "download failed with status".toList, fs)
  else
    let createdMode := match fs destPath with | some df => df.mode | none => 0o666
    let fs1 := fsSet fs destPath ⟨chunks.flatten, createdMode⟩
    if streamOk then (.ok (), fs1)
    else (.error "failed to write downloaded data".toList, fs1)

/-- The staging tail of `CheckAndPrepareUpdate` (src/updates.go lines
126-136): download to the canonical update path, then on non-Windows
`os.Chmod(0755)` it, an oracle saying whether the chmod succeeds. -/
def prepareStage (fs : FS) (dataDir goos : Str) (status : Nat)
    (chunks : List (List Nat)) (streamOk chmodOk : Bool) : Except Str Unit × FS :=
  let p := updatePathOf dataDir goos
  match downloadAsset fs p status chunks streamOk with
  | (.error e, fs') => (.error e, fs')
  | (.ok _, fs') =>
    if goos ≠ "windows".toList then
      if chmodOk then (.ok (), fsChmod fs' p 0o755)
      else (.error "failed to make update executable".toList, fs')
    else (.ok (), fs')

/-- Models `CleanupUpdate` from src/updates.go: removing the canonical
update path; absence is success. -/
def cleanupUpdate (fs : FS) (dataDir goos : Str) : FS :=
  fsRemove fs (updatePathOf dataDir goos)

/-! ### ApplyUpdate and HandleUpdateMode -/

/-- The observable outcome of `ApplyUpdate`: an error return to the
caller, or `os.Exit(0)` (the function never returns on success). -/
inductive ApplyOutcome where
  | errNotPrepared
  | errSpawnFailed
  | exitedZero
deriving DecidableEq

/-- Whether the process survives `ApplyUpdate` and sees a return value. -/
def applyReturnsToCaller : ApplyOutcome → Bool
  | .errNotPrepared => true
  | .errSpawnFailed => true
  | .exitedZero => false

/-- Models `ApplyUpdate` from src/updates.go: stat the staged path (absent
means the "no prepared update found" error), spawn the staged artifact
(`spawnOk` is the oracle for `cmd.Start()`), and on success `os.Exit(0)`. -/
def applyUpdate (fs : FS) (c : UpdateConfig) (goos : Str) (spawnOk : Bool) : ApplyOutcome :=
  if (fs (stagedPath c goos)).isNone then .errNotPrepared
  else if ¬ spawnOk then .errSpawnFailed
  else .exitedZero

/-- The argument vector `ApplyUpdate` passes to the spawned process
(src/updates.go lines 172-174).  `osArgs` stands for the current
process's own invocation arguments; the source never reads them, which
the definition records by ignoring the parameter. -/
def applySpawnArgs (c : UpdateConfig) (pid : Int) (osArgs : List Str) : List Str :=
  let _ := osArgs
  ["--perform-update".toList,
   "--original-path=".toList ++ c.ExecutablePath,
   "--pid=".toList ++ goItoa pid]

/-- The outcome of the argument-inspection phase of `HandleUpdateMode`:
not in update mode, fatal exit over invalid arguments, or proceeding to
the wait/copy sequence with the parsed path and pid. -/
inductive HandleOutcome where
  | notUpdateMode
  | exitInvalidArgs
  | proceed (originalPath : Str) (pid : Int)
deriving DecidableEq

/-- One iteration of `HandleUpdateMode`'s argument loop over the state
(originalPath, pidToWait): `--original-path=` overwrites the path,
`--pid=` overwrites the pid only when `strconv.Atoi` succeeds. -/
def updateArgStep (st : Str × Int) (arg : Str) : Str × Int :=
  if goHasPre "--original-path=".toList arg then
    (goTrimPre "--original-path=".toList arg, st.2)
  else if goHasPre "--pid=".toList arg then
    match goAtoi (goTrimPre "--pid=".toList arg) with
    | some v => (st.1, v)
    | none => st
  else st

/-- Models the argument handling of `HandleUpdateMode` (src/updates.go
lines 218-242): `args` is `os.Args[1:]`; the marker must be the first
argument; then the loop runs with initial state `("", 0)`, and an empty
path or zero pid is the fatal invalid-arguments exit. -/
def handleUpdateArgs (args : List Str) : HandleOutcome :=
  match args with
  | [] => .notUpdateMode
  | a0 :: rest =>
    if a0 ≠ "--perform-update".toList then .notUpdateMode
    else
      let st := rest.foldl updateArgStep ([], 0)
      if st.1 = [] ∨ st.2 = 0 then .exitInvalidArgs
      else .proceed st.1 st.2

example : handleUpdateArgs ["run".toList] = .notUpdateMode := by decide
example : handleUpdateArgs ["--perform-update".toList, "--original-path=/usr/bin/app".toList, "--pid=42".toList] = .proceed "/usr/bin/app".toList 42 := by decide
example : handleUpdateArgs ["--perform-update".toList, "--original-path=/usr/bin/app".toList, "--pid=abc".toList] = .exitInvalidArgs := by decide
example : handleUpdateArgs ["--perform-update".toList, "--original-path=/usr/bin/app".toList, "--pid=0".toList] = .exitInvalidArgs := by decide
example : handleUpdateArgs ["--perform-update".toList, "--original-path=/usr/bin/app".toList, "--pid=-5".toList] = .proceed "/usr/bin/app".toList (-5) := by decide
example : handleUpdateArgs ["--perform-update".toList, "--original-path=/usr/bin/app".toList] = .exitInvalidArgs := by decide

/-! ### The POSIX liveness probe -/

/-- The outcome of delivering the null signal to a pid: deliverable,
undeliverable because the process is gone, undeliverable for lack of
permission (process exists), or some other error. -/
inductive SigResult where
  | success
  | errProcessDone
  | errPermission
  | errOther
deriving DecidableEq

/-- Models the POSIX branch of `isProcessRunning` (src/updates.go lines
459-474): `os.FindProcess` never fails on Unix, and the code returns
`err == nil` for the null-signal attempt — true exactly on deliverable. -/
def isProcessRunning (signal0 : Int → SigResult) (pid : Int) : Bool :=
  decide (signal0 pid = SigResult.success)

/-! ### Observation helpers and the template-item view

`fileAfterCopy` and `isErr` extract the observable parts of results.
The template-item view regards an asset-name template as an interleaving
of literal segments and placeholder occurrences, which is how the claim
about rendered names quantifies over templates. -/

/-- The destination file left behind by a successful `copyFile`. -/
def fileAfterCopy (fs : FS) (src dst : Str) : Option FSFile :=
  match copyFile fs src dst with
  | .ok fs' => fs' dst
  | .error _ => none

/-- Whether an operation came back as an error. -/
def isErr : Except Str Unit → Bool
  | .error _ => true
  | .ok _ => false

/-- The four placeholders of `buildAssetName`. -/
inductive Ph where
  | ver
  | os
  | arch
  | ext
deriving DecidableEq

/-- The literal token of a placeholder. -/
def tokOf : Ph → Str
  | .ver => tokVersion
  | .os => tokOs
  | .arch => tokArch
  | .ext => tokExt

/-- A template item: a literal segment or a placeholder occurrence. -/
inductive TItem where
  | lit (s : Str)
  | ph (p : Ph)

/-- The template string an item list denotes. -/
def renderT : List TItem → Str
  | [] => []
  | .lit s :: r => s ++ renderT r
  | .ph p :: r => tokOf p ++ renderT r

/-- Substituting one placeholder by a replacement string, itemwise. -/
def substPh (t : Ph) (rep : Str) : TItem → TItem
  | .lit s => .lit s
  | .ph p => if p = t then .lit rep else .ph p

/-- A string without any opening brace. -/
def braceFreeB (s : Str) : Bool := s.all (fun c => c ≠ '{')

/-- Literal segments must be brace-free; placeholders are always fine. -/
def itemOkB : TItem → Bool
  | .lit s => braceFreeB s
  | .ph _ => true

/-- All items of a template are well-formed. -/
def itemsOkB (items : List TItem) : Bool := items.all itemOkB

/-! ### Helper lemmas -/

/-- The fuel of `replLoopF` is immaterial once it covers the string. -/
theorem replLoopF_congr (p : Char) (ps rep : Str) :
    ∀ (f₁ f₂ : Nat) (s : Str), s.length ≤ f₁ → s.length ≤ f₂ →
      replLoopF p ps rep f₁ s = replLoopF p ps rep f₂ s := by
  intro f₁
  induction f₁ with
  | zero =>
    intro f₂ s hs₁ _
    have : s = [] := List.length_eq_zero.mp (Nat.le_zero.mp hs₁)
    subst this
    cases f₂ <;> rfl
  | succ f ih =>
    intro f₂ s hs₁ hs₂
    cases s with
    | nil => cases f₂ <;> rfl
    | cons c rest =>
      cases f₂ with
      | zero => exact absurd hs₂ (by simp)
      | succ g =>
        simp only [replLoopF]
        by_cases h : ((p :: ps).isPrefixOf (c :: rest)) = true
        · simp only [h, if_true]
          have hlen : (rest.drop ps.length).length ≤ f := by
            have := List.length_drop ps.length rest
            simp only [List.length_cons] at hs₁
            omega
          have hlen₂ : (rest.drop ps.length).length ≤ g := by
            have := List.length_drop ps.length rest
            simp only [List.length_cons] at hs₂
            omega
          rw [ih g (rest.drop ps.length) hlen hlen₂]
        · simp only [h, if_false]
          have hlen : rest.length ≤ f := by
            simp only [List.length_cons] at hs₁; omega
          have hlen₂ : rest.length ≤ g := by
            simp only [List.length_cons] at hs₂; omega
          rw [ih g rest hlen hlen₂]
          simp

/-- Unfolding: the loop on the empty string. -/
theorem replLoop_nil (p : Char) (ps rep : Str) : replLoop p ps rep [] = [] := rfl

/-- Unfolding: the loop when the pattern matches at the head. -/
theorem replLoop_cons_pos (p : Char) (ps rep : Str) (c : Char) (rest : Str)
    (h : ((p :: ps).isPrefixOf (c :: rest)) = true) :
    replLoop p ps rep (c :: rest) = rep ++ replLoop p ps rep (rest.drop ps.length) := by
  simp only [replLoop, List.length_cons, replLoopF, h, if_true]
  congr 1
  exact replLoopF_congr p ps rep rest.length (rest.drop ps.length).length
    (rest.drop ps.length) (by simp) le_rfl

/-- Unfolding: the loop when the pattern does not match at the head. -/
theorem replLoop_cons_neg (p : Char) (ps rep : Str) (c : Char) (rest : Str)
    (h : ¬ ((p :: ps).isPrefixOf (c :: rest)) = true) :
    replLoop p ps rep (c :: rest) = c :: replLoop p ps rep rest := by
  simp only [replLoop, List.length_cons, replLoopF, h]
  simp

/-- A list heads its own append. -/
theorem isPrefixOf_append_self (l s : Str) : l.isPrefixOf (l ++ s) = true := by
  induction l with
  | nil => simp [List.isPrefixOf]
  | cons c cs ih => simp [List.isPrefixOf, ih]

/-- `strings.HasPrefix pre (pre ++ s)` holds. -/
theorem goHasPre_append (pre s : Str) : goHasPre pre (pre ++ s) = true :=
  isPrefixOf_append_self pre s

/-- `strings.TrimPrefix pre (pre ++ s)` recovers `s`. -/
theorem goTrimPre_append (pre s : Str) : goTrimPre pre (pre ++ s) = s := by
  simp [goTrimPre, goHasPre_append]

/-- A pattern occurs in any string enclosing it. -/
theorem hasOccur_append_self (pat X Y : Str) : hasOccur pat (X ++ pat ++ Y) = true := by
  induction X with
  | nil =>
    cases pat with
    | nil => cases Y <;> simp [hasOccur]
    | cons p ps => simp [hasOccur, isPrefixOf_append_self]
  | cons c X' ih =>
    simp only [hasOccur, Bool.or_eq_true]
    exact Or.inr ih

/-- A mismatch at the head refutes the prefix test. -/
theorem isPrefixOf_cons_ne (a b : Char) (as bs : Str) (h : a ≠ b) :
    (a :: as).isPrefixOf (b :: bs) = false := by
  simp [List.isPrefixOf]
  intro h'
  exact absurd h' h

/-- A pattern opening with `'{'` cannot occur in a brace-free string. -/
theorem hasOccur_false_of_braceFree (ps s : Str) (h : ∀ c ∈ s, c ≠ '{') :
    hasOccur ('{' :: ps) s = false := by
  induction s with
  | nil => rfl
  | cons c rest ih =>
    have hc : c ≠ '{' := h c (List.mem_cons_self c rest)
    have hrest : ∀ x ∈ rest, x ≠ '{' := fun x hx => h x (List.mem_cons_of_mem c hx)
    simp only [hasOccur, Bool.or_eq_false_iff]
    exact ⟨isPrefixOf_cons_ne '{' c ps rest (fun hcc => hc hcc.symm), ih hrest⟩

/-! ### Claim C1 — permission bits applied by copyFile -/

/-- Claim C1 counterexample: with a staged source of mode 0755 and an
original destination executable of the more restrictive mode 0700,
`copyFile` leaves the destination at mode 0755 — the source's bits, not
the destination's pre-overwrite bits, so a more restrictive deployment
policy *is* loosened. -/
theorem claim_C1_counterexample :
    (fileAfterCopy
        (fun q =>
          if q = "/data/update".toList then some ⟨[7], 0o755⟩
          else if q = "/usr/bin/app".toList then some ⟨[1], 0o700⟩ else none)
        "/data/update".toList "/usr/bin/app".toList).map FSFile.mode = some 0o755
    ∧ (0o755 : Nat) ≠ 0o700 := by
  exact ⟨rfl, by decide⟩

/-- Claim C1 amended: the permission bits applied to the overwritten
original executable are the *source* file's bits, read by `os.Stat` on the
source after the copy (the destination's prior bits are discarded). -/
theorem claim_C1_permission_bits (fs : FS) (src dst : Str) (sf : FSFile)
    (h : fs src = some sf) :
    fileAfterCopy fs src dst = some ⟨sf.bytes, sf.mode⟩ := by
  simp [fileAfterCopy, copyFile, h, fsSet]

/-- Claim C1 witness. -/
theorem claim_C1_witness :
    fileAfterCopy (fun _ => some ⟨[3, 4], 0o750⟩) "/a".toList "/b".toList
      = some ⟨[3, 4], 0o750⟩ :=
  claim_C1_permission_bits (fun _ => some ⟨[3, 4], 0o750⟩) "/a".toList "/b".toList
    ⟨[3, 4], 0o750⟩ rfl

/-! ### Claim C2 — the POSIX liveness probe -/

/-- Claim C2 counterexample: when the null signal fails with
permission-denied (process exists), the probe reports `false`, not the
`true` the claim requires. -/
theorem claim_C2_counterexample :
    ¬ (isProcessRunning (fun _ => SigResult.errPermission) 1234 = true) := by
  decide

/-- Claim C2 amended: the probe returns `true` exactly when the null
signal is deliverable (`err == nil`); *every* failure — including
permission-denied against an existing process — reports not-running. -/
theorem claim_C2_probe (signal0 : Int → SigResult) (pid : Int) :
    isProcessRunning signal0 pid = true ↔ signal0 pid = SigResult.success := by
  simp [isProcessRunning]

/-! ### Claim C6 — ApplyUpdate outcomes -/

/-- Claim C6: with no staged artifact, `ApplyUpdate` returns the "no
prepared update" error and the process lives on; on spawn failure it
returns an error and the process lives on; on successful spawn it exits
with status 0 and never returns to its caller. -/
theorem claim_C6_apply_outcomes (fs : FS) (c : UpdateConfig) (goos : Str) (spawnOk : Bool) :
    (fs (stagedPath c goos) = none →
      applyUpdate fs c goos spawnOk = .errNotPrepared
      ∧ applyReturnsToCaller (applyUpdate fs c goos spawnOk) = true)
    ∧ (∀ f, fs (stagedPath c goos) = some f → spawnOk = false →
      applyUpdate fs c goos spawnOk = .errSpawnFailed
      ∧ applyReturnsToCaller (applyUpdate fs c goos spawnOk) = true)
    ∧ (∀ f, fs (stagedPath c goos) = some f → spawnOk = true →
      applyUpdate fs c goos spawnOk = .exitedZero
      ∧ applyReturnsToCaller (applyUpdate fs c goos spawnOk) = false) := by
  refine ⟨fun h => ?_, fun f h hs => ?_, fun f h hs => ?_⟩
  · simp [applyUpdate, h, applyReturnsToCaller]
  · subst hs; simp [applyUpdate, h, applyReturnsToCaller]
  · subst hs; simp [applyUpdate, h, applyReturnsToCaller]

/-- Claim C6 witness. -/
theorem claim_C6_witness :
    applyUpdate (fun _ => none) ⟨[], [], [], [], [], [], [], [], []⟩ "linux".toList true
      = .errNotPrepared
    ∧ applyUpdate (fun _ => some ⟨[1], 0o755⟩) ⟨[], [], [], [], [], [], [], [], []⟩
        "linux".toList false = .errSpawnFailed
    ∧ applyUpdate (fun _ => some ⟨[1], 0o755⟩) ⟨[], [], [], [], [], [], [], [], []⟩
        "linux".toList true = .exitedZero :=
  ⟨((claim_C6_apply_outcomes (fun _ => none) ⟨[], [], [], [], [], [], [], [], []⟩
      "linux".toList true).1 rfl).1,
   ((claim_C6_apply_outcomes (fun _ => some ⟨[1], 0o755⟩) ⟨[], [], [], [], [], [], [], [], []⟩
      "linux".toList false).2.1 ⟨[1], 0o755⟩ rfl rfl).1,
   ((claim_C6_apply_outcomes (fun _ => some ⟨[1], 0o755⟩) ⟨[], [], [], [], [], [], [], [], []⟩
      "linux".toList true).2.2 ⟨[1], 0o755⟩ rfl rfl).1⟩

/-! ### Claim C7 — malformed versions in isNewerVersion -/

/-- Claim C7 counterexample: a current version that does not parse,
against a well-formed latest version, makes `isNewerVersion` answer
`true` (x/mod/semver orders an invalid version below every valid one), so
an update *is* offered — the claim demands `false` whenever either side
is malformed. -/
theorem claim_C7_counterexample :
    isNewerVersion "garbage".toList "v1.0.0".toList = true := by decide

/-- Claim C7 amended: the comparison is total (never crashes), and
whenever the *latest* (remote) version fails to parse after
`'v'`-normalization, `isNewerVersion` answers `false` regardless of the
current version; only a malformed current version against a valid latest
yields `true`. -/
theorem claim_C7_malformed_latest (current latest : Str)
    (h : semverParse (addV latest) = none) :
    isNewerVersion current latest = false := by
  cases hc : semverParse (addV current) <;>
    simp [isNewerVersion, semverCompare, h, hc]

/-- Claim C7 witness. -/
theorem claim_C7_witness :
    semverParse (addV "garbage".toList) = none
    ∧ isNewerVersion "v1.0.0".toList "garbage".toList = false :=
  ⟨rfl, claim_C7_malformed_latest "v1.0.0".toList "garbage".toList rfl⟩

/-! ### Claim C3 — what staging failure leaves behind -/

/-- Claim C3 counterexample: a download stream that fails after
delivering two chunks makes the staging step return an error *and* leaves
a partial artifact (the delivered bytes) at the canonical staged path. -/
theorem claim_C3_counterexample :
    isErr (prepareStage (fun _ => none) "/d".toList "linux".toList 200 [[1], [2]] false true).1
      = true
    ∧ ((prepareStage (fun _ => none) "/d".toList "linux".toList 200 [[1], [2]] false true).2
        (updatePathOf "/d".toList "linux".toList)).map FSFile.bytes = some [1, 2] := by
  exact ⟨rfl, rfl⟩

/-- Claim C3 amended: every failing step returns an error, but the
artifact path is not kept clean: a non-200 response fails before the
destination file is created and leaves the filesystem untouched, while a
mid-stream failure (and likewise a failed chmod after a complete
download) leaves the bytes received so far at the canonical staged name,
because `os.Create` opens the final path before the stream is consumed;
cleanup is the explicit cleanup entry point's job. -/
theorem claim_C3_staging_failure (fs : FS) (dataDir goos : Str) (status : Nat)
    (chunks : List (List Nat)) (streamOk chmodOk : Bool) :
    (status ≠ 200 →
      prepareStage fs dataDir goos status chunks streamOk chmodOk
        = (.error "download failed with status".toList, fs))
    ∧ (isErr (prepareStage fs dataDir goos 200 chunks false chmodOk).1 = true
       ∧ ((prepareStage fs dataDir goos 200 chunks false chmodOk).2
            (updatePathOf dataDir goos)).map FSFile.bytes = some chunks.flatten)
    ∧ (goos ≠ "windows".toList → chmodOk = false →
       isErr (prepareStage fs dataDir goos 200 chunks true chmodOk).1 = true
       ∧ ((prepareStage fs dataDir goos 200 chunks true chmodOk).2
            (updatePathOf dataDir goos)).map FSFile.bytes = some chunks.flatten) := by
  refine ⟨fun h => ?_, ⟨?_, ?_⟩, fun hg hc => ?_⟩
  · simp [prepareStage, downloadAsset, h]
  · simp [prepareStage, downloadAsset, isErr]
  · simp [prepareStage, downloadAsset, fsSet]
  · subst hc
    have hg' : goos ≠ ['w', 'i', 'n', 'd', 'o', 'w', 's'] := hg
    exact ⟨by simp [prepareStage, downloadAsset, isErr, hg'],
           by simp [prepareStage, downloadAsset, fsSet, hg']⟩

/-- Claim C3 witness. -/
theorem claim_C3_witness :
    prepareStage (fun _ => none) "/d".toList "linux".toList 404 [[1]] true true
      = (.error "download failed with status".toList, fun _ => none)
    ∧ isErr (prepareStage (fun _ => none) "/d".toList "linux".toList 200 [[5]] true false).1
        = true
    ∧ ((prepareStage (fun _ => none) "/d".toList "linux".toList 200 [[5]] true false).2
        (updatePathOf "/d".toList "linux".toList)).map FSFile.bytes = some [5] :=
  ⟨(claim_C3_staging_failure (fun _ => none) "/d".toList "linux".toList 404 [[1]] true true).1
      (by decide),
   ((claim_C3_staging_failure (fun _ => none) "/d".toList "linux".toList 404 [[5]] true false).2.2
      (by decide) rfl).1,
   ((claim_C3_staging_failure (fun _ => none) "/d".toList "linux".toList 404 [[5]] true false).2.2
      (by decide) rfl).2⟩

/-! ### Claim C4 — what the asset-not-found error carries -/

/-- Claim C4 counterexample: with a single candidate named `zzqq` and no
exact match, the returned error text does not mention the candidate at
all — the error does not carry the candidate list. -/
theorem claim_C4_counterexample :
    (match findMatchingAsset [⟨"zzqq".toList, "u".toList, 1⟩]
        "app-{os}".toList "v1".toList "linux".toList "amd64".toList with
     | .error e => hasOccur "zzqq".toList e
     | .ok _ => true) = false := by
  decide

/-- Claim C4 amended: on no exact match, `findMatchingAsset` fails with a
plain formatted error carrying the pattern, the rendered expected name,
the version, the os and the arch — but not the candidate list. -/
theorem claim_C4_not_found_error (assets : List GitHubAsset) (pattern version os arch : Str)
    (h : ∀ a ∈ assets, a.name ≠ buildAssetName pattern version os arch) :
    findMatchingAsset assets pattern version os arch
      = .error (assetNotFoundMsg pattern (buildAssetName pattern version os arch)
          version os arch)
    ∧ hasOccur (buildAssetName pattern version os arch)
        (assetNotFoundMsg pattern (buildAssetName pattern version os arch)
          version os arch) = true := by
  constructor
  · have hfind : assets.find?
        (fun a => a.name = buildAssetName pattern version os arch) = none := by
      rw [List.find?_eq_none]
      intro a ha
      simpa using h a ha
    simp [findMatchingAsset, hfind]
  · have hmsg : assetNotFoundMsg pattern (buildAssetName pattern version os arch)
          version os arch
        = ("no asset found matching pattern: ".toList ++ pattern ++ " (expected: ".toList)
          ++ buildAssetName pattern version os arch
          ++ (") for version ".toList ++ version ++ ", os ".toList ++ os
                ++ ", arch ".toList ++ arch) := by
      simp [assetNotFoundMsg]
    rw [hmsg]
    exact hasOccur_append_self _ _ _

/-- Claim C4 witness. -/
theorem claim_C4_witness :
    findMatchingAsset [⟨"foo".toList, "u".toList, 1⟩]
        "app-{os}".toList "v1".toList "linux".toList "amd64".toList
      = .error (assetNotFoundMsg "app-{os}".toList
          (buildAssetName "app-{os}".toList "v1".toList "linux".toList "amd64".toList)
          "v1".toList "linux".toList "amd64".toList) :=
  (claim_C4_not_found_error [⟨"foo".toList, "u".toList, 1⟩]
    "app-{os}".toList "v1".toList "linux".toList "amd64".toList (by decide)).1

/-! ### Claim C5 — no argument forwarding exists in the code -/

/-- Claim C5 (code_bug evidence): the spawn handoff built by
`ApplyUpdate` is independent of the current process's invocation
arguments and is always exactly the marker, the original path and the
pid; and the child-side argument loop of `HandleUpdateMode` ignores any
extra forwarded-argument blob.  `UpdateConfig` has no field enabling
forwarding, although the repository's README documents
`ForwardArguments`/`encodeArgs`/`decodeArgs`. -/
theorem claim_C5_no_argument_forwarding :
    (∀ (c : UpdateConfig) (pid : Int) (osArgs osArgs' : List Str),
      applySpawnArgs c pid osArgs = applySpawnArgs c pid osArgs')
    ∧ applySpawnArgs ⟨"o".toList, "r".toList, [], "v1".toList, "/data".toList,
        "/usr/bin/app".toList, "p".toList, [], []⟩ 7 ["--verbose".toList]
        = ["--perform-update".toList, "--original-path=/usr/bin/app".toList,
           "--pid=7".toList]
    ∧ (∀ (st : Str × Int) (extra : Str),
        updateArgStep st ("--args=".toList ++ extra) = st) :=
  ⟨fun _ _ _ _ => rfl, by decide, fun _ _ => rfl⟩

/-! ### Claim C9 — one staged artifact per staging directory -/

/-- Claim C9: the staged path is version-independent (it depends only on
the staging directory and platform, with the fixed name `update` plus the
executable extension), and staging twice in succession leaves the second
input's bytes at that single path while every other path is untouched. -/
theorem claim_C9_staged_path_invariant (c c' : UpdateConfig) (goos : Str) (fs : FS)
    (b1 b2 : List (List Nat)) (hdir : c.DataDir = c'.DataDir) :
    stagedPath c goos = stagedPath c' goos
    ∧ stagedPath c goos = joinPath c.DataDir ("update".toList ++ getExecutableExtension goos)
    ∧ (((downloadAsset ((downloadAsset fs (stagedPath c goos) 200 b1 true).2)
          (stagedPath c goos) 200 b2 true).2 (stagedPath c goos)).map FSFile.bytes
        = some b2.flatten)
    ∧ (∀ q, q ≠ stagedPath c goos →
        (downloadAsset ((downloadAsset fs (stagedPath c goos) 200 b1 true).2)
          (stagedPath c goos) 200 b2 true).2 q = fs q) := by
  refine ⟨by simp [stagedPath, updatePathOf, hdir], rfl, ?_, ?_⟩
  · simp [downloadAsset, fsSet]
  · intro q hq
    simp [downloadAsset, fsSet, hq]

/-- Claim C9 witness. -/
theorem claim_C9_witness :
    stagedPath ⟨"o".toList, "r".toList, [], "v1".toList, "/data".toList, "/e".toList,
        "p".toList, [], []⟩ "linux".toList
      = stagedPath ⟨"o".toList, "r".toList, [], "v2".toList, "/data".toList, "/e".toList,
        "p".toList, [], []⟩ "linux".toList
    ∧ (((downloadAsset ((downloadAsset (fun _ => none)
          (stagedPath ⟨"o".toList, "r".toList, [], "v1".toList, "/data".toList, "/e".toList,
            "p".toList, [], []⟩ "linux".toList) 200 [[1], [2]] true).2)
          (stagedPath ⟨"o".toList, "r".toList, [], "v1".toList, "/data".toList, "/e".toList,
            "p".toList, [], []⟩ "linux".toList) 200 [[9], [9]] true).2
          (stagedPath ⟨"o".toList, "r".toList, [], "v1".toList, "/data".toList, "/e".toList,
            "p".toList, [], []⟩ "linux".toList)).map FSFile.bytes
        = some [9, 9]) :=
  ⟨(claim_C9_staged_path_invariant
      ⟨"o".toList, "r".toList, [], "v1".toList, "/data".toList, "/e".toList, "p".toList, [], []⟩
      ⟨"o".toList, "r".toList, [], "v2".toList, "/data".toList, "/e".toList, "p".toList, [], []⟩
      "linux".toList (fun _ => none) [[1], [2]] [[9], [9]] rfl).1,
   (claim_C9_staged_path_invariant
      ⟨"o".toList, "r".toList, [], "v1".toList, "/data".toList, "/e".toList, "p".toList, [], []⟩
      ⟨"o".toList, "r".toList, [], "v2".toList, "/data".toList, "/e".toList, "p".toList, [], []⟩
      "linux".toList (fun _ => none) [[1], [2]] [[9], [9]] rfl).2.2.1⟩

/-! ### Claim C10 — pid parsing in HandleUpdateMode -/

/-- `--original-path=` is not a prefix of a `--pid=` argument. -/
theorem hasPre_op_on_pid (s : Str) :
    goHasPre "--original-path=".toList ("--pid=".toList ++ s) = false := rfl

/-- `--pid=` is not a prefix of an `--original-path=` argument. -/
theorem hasPre_pid_on_op (p : Str) :
    goHasPre "--pid=".toList ("--original-path=".toList ++ p) = false := rfl

/-- Claim C10: an unparseable `--pid` value, or one parsing to `0`, is
handled exactly like an absent pid argument — the state stays `0`, so the
process exits over invalid update-mode arguments with no distinct
parse-error diagnosis; a parseable negative pid is accepted and handed to
the wait loop. -/
theorem claim_C10_pid_parsing (p s : Str)
    (h : goAtoi s = none ∨ goAtoi s = some 0) :
    handleUpdateArgs ["--perform-update".toList,
        "--original-path=".toList ++ p, "--pid=".toList ++ s]
      = handleUpdateArgs ["--perform-update".toList, "--original-path=".toList ++ p]
    ∧ handleUpdateArgs ["--perform-update".toList,
        "--original-path=".toList ++ p, "--pid=".toList ++ s]
      = HandleOutcome.exitInvalidArgs
    ∧ (∀ (t : Str) (v : Int), goAtoi t = some v → v < 0 → p ≠ [] →
        handleUpdateArgs ["--perform-update".toList,
            "--original-path=".toList ++ p, "--pid=".toList ++ t]
          = HandleOutcome.proceed p v) := by
  have hop : ∀ (st : Str × Int) (t : Str),
      updateArgStep st ("--original-path=".toList ++ t) = (t, st.2) := by
    intro st t
    unfold updateArgStep
    rw [goHasPre_append, goTrimPre_append]
    simp
  have hpid : ∀ (st : Str × Int) (t : Str),
      updateArgStep st ("--pid=".toList ++ t)
        = (match goAtoi t with | some v => (st.1, v) | none => st) := by
    intro st t
    unfold updateArgStep
    rw [hasPre_op_on_pid, goHasPre_append, goTrimPre_append]
    simp
  have hmark : ¬ ("--perform-update".toList ≠ "--perform-update".toList) :=
    fun hh => hh rfl
  have h3 : ∀ t : Str, handleUpdateArgs ["--perform-update".toList,
      "--original-path=".toList ++ p, "--pid=".toList ++ t]
      = (if p = [] ∨ (match goAtoi t with | some v => ((p : Str), v) | none => ((p : Str), (0 : Int))).2 = 0
         then HandleOutcome.exitInvalidArgs
         else HandleOutcome.proceed p (match goAtoi t with | some v => ((p : Str), v) | none => ((p : Str), (0 : Int))).2) := by
    intro t
    simp only [handleUpdateArgs, List.foldl_cons, List.foldl_nil, if_neg hmark,
      hop, hpid]
    cases goAtoi t <;> rfl
  have h2 : handleUpdateArgs ["--perform-update".toList, "--original-path=".toList ++ p]
      = HandleOutcome.exitInvalidArgs := by
    simp only [handleUpdateArgs, List.foldl_cons, List.foldl_nil, if_neg hmark, hop]
    exact if_pos (Or.inr trivial)
  have hzero : handleUpdateArgs ["--perform-update".toList,
      "--original-path=".toList ++ p, "--pid=".toList ++ s]
      = HandleOutcome.exitInvalidArgs := by
    rw [h3 s]
    rcases h with h | h <;> rw [h] <;> exact if_pos (Or.inr rfl)
  refine ⟨by rw [hzero, h2], hzero, ?_⟩
  intro t v ht hv hp
  rw [h3 t, ht]
  have : ¬ (p = [] ∨ v = 0) := by
    rintro (hc | hc)
    · exact hp hc
    · omega
  exact if_neg this

/-- Claim C10 witness. -/
theorem claim_C10_witness :
    handleUpdateArgs ["--perform-update".toList,
        "--original-path=".toList ++ "/a".toList, "--pid=".toList ++ "xyz".toList]
      = HandleOutcome.exitInvalidArgs
    ∧ handleUpdateArgs ["--perform-update".toList,
        "--original-path=".toList ++ "/a".toList, "--pid=".toList ++ "-5".toList]
      = HandleOutcome.proceed "/a".toList (-5) :=
  ⟨(claim_C10_pid_parsing "/a".toList "xyz".toList (Or.inl rfl)).2.1,
   (claim_C10_pid_parsing "/a".toList "xyz".toList (Or.inl rfl)).2.2
      "-5".toList (-5) rfl (by decide) (by decide)⟩

/-! ### Claim C8 — placeholder tokens in rendered asset names

Scaffolding: a template is viewed as an interleaving of literal segments
and placeholder occurrences; `replaceAll` is shown to act on that
structure segmentwise, because every token opens with `'{'`, the tokens
differ pairwise right after the brace, and brace-free text can never
start a token match. -/

/-- The scan passes over brace-free text unchanged. -/
theorem replLoop_skip (ps rep X Z : Str) (hX : ∀ c ∈ X, c ≠ '{') :
    replLoop '{' ps rep (X ++ Z) = X ++ replLoop '{' ps rep Z := by
  induction X with
  | nil => simp
  | cons c X' ih =>
    have hc : c ≠ '{' := hX c (List.mem_cons_self c X')
    have hX' : ∀ x ∈ X', x ≠ '{' := fun x hx => hX x (List.mem_cons_of_mem c hx)
    have hpre : ((('{' : Char) :: ps).isPrefixOf (c :: (X' ++ Z))) = false :=
      isPrefixOf_cons_ne '{' c ps (X' ++ Z) (fun hh => hc hh.symm)
    rw [List.cons_append, replLoop_cons_neg _ _ _ _ _ (by simp [hpre]), ih hX']
    simp

/-- The scan replaces the pattern heading the string and moves past it. -/
theorem replLoop_match (ps rep Z : Str) :
    replLoop '{' ps rep (('{' :: ps) ++ Z) = rep ++ replLoop '{' ps rep Z := by
  have hpre : ((('{' : Char) :: ps).isPrefixOf ('{' :: (ps ++ Z))) = true :=
    isPrefixOf_append_self ('{' :: ps) Z
  rw [List.cons_append, replLoop_cons_pos _ _ _ _ _ hpre]
  congr 1
  congr 1
  exact List.drop_left ps Z

/-- The scan passes over a different token (diverging right after the
opening brace, with a brace-free tail) unchanged. -/
theorem replLoop_other (a : Char) (ps : Str) (b : Char) (qs rep Z : Str)
    (hab : a ≠ b) (hb : b ≠ '{') (hq : ∀ c ∈ qs, c ≠ '{') :
    replLoop '{' (a :: ps) rep (('{' :: b :: qs) ++ Z)
      = ('{' :: b :: qs) ++ replLoop '{' (a :: ps) rep Z := by
  have h1 : ((a :: ps).isPrefixOf (b :: (qs ++ Z))) = false :=
    isPrefixOf_cons_ne a b ps (qs ++ Z) hab
  have hpre : ((('{' : Char) :: a :: ps).isPrefixOf ('{' :: b :: (qs ++ Z))) = false := by
    show ((('{' : Char) == '{') && (a :: ps).isPrefixOf (b :: (qs ++ Z))) = false
    rw [h1]
    simp
  have hskip : replLoop '{' (a :: ps) rep ((b :: qs) ++ Z)
      = (b :: qs) ++ replLoop '{' (a :: ps) rep Z :=
    replLoop_skip (a :: ps) rep (b :: qs) Z
      (by
        intro x hx
        rcases List.mem_cons.mp hx with h | h
        · exact h ▸ hb
        · exact hq x h)
  calc replLoop '{' (a :: ps) rep (('{' :: b :: qs) ++ Z)
      = replLoop '{' (a :: ps) rep ('{' :: (b :: qs ++ Z)) := by simp
    _ = '{' :: replLoop '{' (a :: ps) rep ((b :: qs) ++ Z) :=
        replLoop_cons_neg _ _ _ _ _ (by simp [hpre])
    _ = '{' :: ((b :: qs) ++ replLoop '{' (a :: ps) rep Z) := by rw [hskip]
    _ = ('{' :: b :: qs) ++ replLoop '{' (a :: ps) rep Z := by simp

/-- `replaceAll` by a token skips a brace-free segment. -/
theorem replaceAll_tok_lit (t : Ph) (s Z rep : Str) (hs : ∀ c ∈ s, c ≠ '{') :
    replaceAll (s ++ Z) (tokOf t) rep = s ++ replaceAll Z (tokOf t) rep := by
  cases t <;> exact replLoop_skip _ rep s Z hs

/-- `replaceAll` by a token substitutes that token at the head. -/
theorem replaceAll_tok_self (t : Ph) (rep Z : Str) :
    replaceAll (tokOf t ++ Z) (tokOf t) rep = rep ++ replaceAll Z (tokOf t) rep := by
  cases t <;> exact replLoop_match _ rep Z

/-- `replaceAll` by a token skips a different token at the head. -/
theorem replaceAll_tok_other (t p : Ph) (hp : p ≠ t) (rep Z : Str) :
    replaceAll (tokOf p ++ Z) (tokOf t) rep = tokOf p ++ replaceAll Z (tokOf t) rep := by
  cases t <;> cases p <;>
    first
      | exact absurd rfl hp
      | exact replLoop_other _ _ _ _ rep Z (by decide) (by decide) (by decide)

/-- `replaceAll` acts itemwise on a rendered well-formed template. -/
theorem replaceAll_renderT (t : Ph) (rep : Str) (items : List TItem)
    (hok : itemsOkB items = true) :
    replaceAll (renderT items) (tokOf t) rep = renderT (items.map (substPh t rep)) := by
  induction items with
  | nil => cases t <;> rfl
  | cons it rest ih =>
    have hh : itemOkB it = true ∧ itemsOkB rest = true := by
      simpa [itemsOkB] using hok
    cases it with
    | lit s =>
      have hs : ∀ c ∈ s, c ≠ '{' := by
        simpa [itemOkB, braceFreeB] using hh.1
      show replaceAll (s ++ renderT rest) (tokOf t) rep
          = renderT (TItem.lit s :: rest.map (substPh t rep))
      rw [replaceAll_tok_lit t s (renderT rest) rep hs, ih hh.2]
      rfl
    | ph p =>
      by_cases hp : p = t
      · subst hp
        show replaceAll (tokOf p ++ renderT rest) (tokOf p) rep
            = renderT (substPh p rep (TItem.ph p) :: rest.map (substPh p rep))
        rw [replaceAll_tok_self p rep (renderT rest), ih hh.2]
        simp [substPh, renderT]
      · show replaceAll (tokOf p ++ renderT rest) (tokOf t) rep
            = renderT (substPh t rep (TItem.ph p) :: rest.map (substPh t rep))
        rw [replaceAll_tok_other t p hp rep (renderT rest), ih hh.2]
        simp [substPh, hp, renderT]

/-- Itemwise substitution with a brace-free replacement keeps an item
well-formed. -/
theorem itemOkB_subst (t : Ph) (rep : Str) (hrep : braceFreeB rep = true)
    (it : TItem) (h : itemOkB it = true) : itemOkB (substPh t rep it) = true := by
  cases it with
  | lit s => exact h
  | ph p =>
    by_cases hp : p = t
    · simp [substPh, hp, itemOkB, hrep]
    · simp [substPh, hp, itemOkB]

/-- Itemwise substitution with a brace-free replacement keeps a template
well-formed. -/
theorem itemsOkB_subst (t : Ph) (rep : Str) (hrep : braceFreeB rep = true)
    (items : List TItem) (hok : itemsOkB items = true) :
    itemsOkB (items.map (substPh t rep)) = true := by
  simp only [itemsOkB, List.all_map]
  simp only [itemsOkB] at hok
  rw [List.all_eq_true] at hok ⊢
  exact fun it hit => itemOkB_subst t rep hrep it (hok it hit)

/-- A template of brace-free literals renders to a brace-free string. -/
theorem renderT_lit_braceFree (items : List TItem)
    (h : ∀ it ∈ items, ∃ s, it = TItem.lit s ∧ braceFreeB s = true) :
    ∀ c ∈ renderT items, c ≠ '{' := by
  induction items with
  | nil => intro c hc; simp [renderT] at hc
  | cons it rest ih =>
    obtain ⟨s, rfl, hbf⟩ := h it (List.mem_cons_self it rest)
    intro c hc
    rcases List.mem_append.mp hc with hcs | hcr
    · have := (List.all_eq_true.mp hbf) c hcs
      simpa using this
    · exact ih (fun x hx => h x (List.mem_cons_of_mem _ hx)) c hcr

/-- Substituting all four placeholders (in `buildAssetName`'s order) with
brace-free values turns every well-formed item into a brace-free literal. -/
theorem substFour_lit (it : TItem) (hit : itemOkB it = true)
    (version osv archv extv : Str) (hv : braceFreeB version = true)
    (ho : braceFreeB osv = true) (ha : braceFreeB archv = true)
    (he : braceFreeB extv = true) :
    ∃ s, substPh .ext extv (substPh .arch archv (substPh .os osv
        (substPh .ver version it))) = TItem.lit s ∧ braceFreeB s = true := by
  cases it with
  | lit s => exact ⟨s, rfl, hit⟩
  | ph p =>
    cases p with
    | ver => exact ⟨version, rfl, hv⟩
    | os => exact ⟨osv, rfl, ho⟩
    | arch => exact ⟨archv, rfl, ha⟩
    | ext => exact ⟨extv, rfl, he⟩

/-- Claim C8 counterexample: the pattern `{version}{os}{arch}{ext}`
contains each placeholder exactly once, yet with the os value
`{version}` the rendered name still contains the literal `{version}`
token — substituted values can reintroduce tokens, so the claim's
unrestricted quantification over values fails. -/
theorem claim_C8_counterexample :
    countOccur tokVersion "{version}{os}{arch}{ext}".toList = 1
    ∧ countOccur tokOs "{version}{os}{arch}{ext}".toList = 1
    ∧ countOccur tokArch "{version}{os}{arch}{ext}".toList = 1
    ∧ countOccur tokExt "{version}{os}{arch}{ext}".toList = 1
    ∧ hasOccur tokVersion
        (buildAssetName "{version}{os}{arch}{ext}".toList
          "1".toList "{version}".toList "a".toList) = true := by
  exact ⟨by decide, by decide, by decide, by decide, by decide⟩

/-- Claim C8 amended: for every template assembled from brace-free
literal segments and placeholder occurrences (in particular any template
containing each of the four placeholders exactly once and no other
brace), and for all version/os/arch values containing no `'{'`, the
rendered string contains none of the literal placeholder tokens. -/
theorem claim_C8_rendered_no_tokens (items : List TItem) (version osv archv : Str)
    (hitems : itemsOkB items = true) (hv : braceFreeB version = true)
    (ho : braceFreeB osv = true) (ha : braceFreeB archv = true) :
    hasOccur tokVersion (buildAssetName (renderT items) version osv archv) = false
    ∧ hasOccur tokOs (buildAssetName (renderT items) version osv archv) = false
    ∧ hasOccur tokArch (buildAssetName (renderT items) version osv archv) = false
    ∧ hasOccur tokExt (buildAssetName (renderT items) version osv archv) = false := by
  have he : braceFreeB (if osv = "windows".toList then ".exe".toList else []) = true := by
    split_ifs <;> decide
  have h1 := replaceAll_renderT .ver version items hitems
  have hok1 := itemsOkB_subst .ver version hv items hitems
  have h2 := replaceAll_renderT .os osv _ hok1
  have hok2 := itemsOkB_subst .os osv ho _ hok1
  have h3 := replaceAll_renderT .arch archv _ hok2
  have hok3 := itemsOkB_subst .arch archv ha _ hok2
  have h4 := replaceAll_renderT .ext (if osv = "windows".toList then ".exe".toList else []) _ hok3
  have hrend : buildAssetName (renderT items) version osv archv
      = renderT ((((items.map (substPh .ver version)).map (substPh .os osv)).map
          (substPh .arch archv)).map
          (substPh .ext (if osv = "windows".toList then ".exe".toList else []))) := by
    show replaceAll (replaceAll (replaceAll (replaceAll (renderT items)
          (tokOf .ver) version) (tokOf .os) osv) (tokOf .arch) archv) (tokOf .ext)
          (if osv = "windows".toList then ".exe".toList else [])
        = _
    rw [h1, h2, h3, h4]
  have hall : ∀ c ∈ renderT ((((items.map (substPh .ver version)).map
      (substPh .os osv)).map (substPh .arch archv)).map
      (substPh .ext (if osv = "windows".toList then ".exe".toList else []))), c ≠ '{' := by
    apply renderT_lit_braceFree
    intro it' hmem
    simp only [List.mem_map] at hmem
    obtain ⟨it3, ⟨it2, ⟨it1, ⟨it0, hit0, rfl⟩, rfl⟩, rfl⟩, rfl⟩ := hmem
    have hit : itemOkB it0 = true := by
      have := List.all_eq_true.mp hitems it0 hit0
      simpa [itemsOkB] using this
    obtain ⟨s, heq, hbf⟩ := substFour_lit it0 hit version osv archv
      (if osv = "windows".toList then ".exe".toList else []) hv ho ha he
    exact ⟨s, heq, hbf⟩
  rw [hrend]
  exact ⟨hasOccur_false_of_braceFree "version\x7d".toList _ hall,
         hasOccur_false_of_braceFree "os\x7d".toList _ hall,
         hasOccur_false_of_braceFree "arch\x7d".toList _ hall,
         hasOccur_false_of_braceFree "ext\x7d".toList _ hall⟩

/-- Claim C8 witness. -/
theorem claim_C8_witness :
    hasOccur tokVersion (buildAssetName
        (renderT [TItem.lit "app-".toList, TItem.ph Ph.ver, TItem.lit "-".toList,
          TItem.ph Ph.os, TItem.lit "-".toList, TItem.ph Ph.arch, TItem.ph Ph.ext])
        "v1.2.0".toList "linux".toList "amd64".toList) = false :=
  (claim_C8_rendered_no_tokens
    [TItem.lit "app-".toList, TItem.ph Ph.ver, TItem.lit "-".toList,
      TItem.ph Ph.os, TItem.lit "-".toList, TItem.ph Ph.arch, TItem.ph Ph.ext]
    "v1.2.0".toList "linux".toList "amd64".toList rfl rfl rfl rfl).1

end Ghupdate
